import Mathlib

/-!
Verification of the Atlas budget aggregation engine.

Shallow embedding of the budget computations of `src/BudgetView.tsx`
(`monthlyBreakdown`, `entriesForPeriod`, `categoryProgressData`,
`categorySpendingDataForChart`, the progress-bar percentage of
`CategoryProgressList`), of the spent accumulators of `budgetOverview` in
`src/WishlistView.tsx`, and of `spentThisMonth` of the home dashboard card
(`src/unnamed/part_001`).  JavaScript numbers are embedded as exact
rationals, and the result of parsing an entry date string is embedded as
`Option (Int × Fin 12)`: `some (year, month)` on success (zero-indexed
month, as returned by `getUTCMonth`), `none` when the parse fails, in which
case every year/month comparison in the source compares against `NaN` and
is therefore false.
-/

namespace Atlas

/-- The `BudgetCategory` interface of `types.ts`, whose content appears in
`src/WishlistView.tsx` (lines 733-739): an identifier drawn from the fixed
closed set of nine category ids, a display name, a description, a fixed
monthly budget amount and a display color.  The id and name unions are
embedded as `String`, the budget as an exact rational; `description` is
omitted as display-only text never read by the aggregation code. -/
structure BudgetCategory where
  id : String
  name : String
  budget : ℚ
  color : String
deriving DecidableEq, Repr

/-- The `BudgetEntry` interface of `types.ts`, whose content appears in
`src/WishlistView.tsx` (lines 740-749).  Fields never read by the
aggregation code (entry id, free-text name, `linkedEventId`, `notes`) are
omitted.  The optional `isRecurring?: boolean` is embedded as `Bool`: an
absent value is falsy in every `if (entry.isRecurring)` test, exactly like
`false`.  `date` holds the outcome of `new Date(date + "T00:00:00Z")`
followed by `getUTCFullYear`/`getUTCMonth`: `some (year, month)` for a
parseable calendar date, `none` for an unparseable string (the source then
sees `NaN` for both fields). -/
structure BudgetEntry where
  categoryId : String
  amount : ℚ
  isRecurring : Bool
  date : Option (Int × Fin 12)
deriving DecidableEq, Repr

/-- One step of the `budgetEntries.forEach` loop inside `monthlyBreakdown`
(`src/BudgetView.tsx`, lines 430-452): how a single entry updates the
twelve per-month, per-category buckets for target year `year`.  An entry
whose date failed to parse changes nothing, because each branch of the
source is guarded by a comparison that is false on `NaN`. -/
def applyEntry (year : ℤ) (bd : Fin 12 → String → ℚ) (e : BudgetEntry) :
    Fin 12 → String → ℚ := fun m c =>
  match e.date with
  | none => bd m c
  | some (ey, em) =>
    if e.isRecurring then
      if ey < year then
        if e.categoryId = c then bd m c + e.amount else bd m c
      else if ey = year then
        if e.categoryId = c ∧ em ≤ m then bd m c + e.amount else bd m c
      else bd m c
    else
      if ey = year then
        if e.categoryId = c ∧ em = m then bd m c + e.amount else bd m c
      else bd m c

/-- `monthlyBreakdown` from `src/BudgetView.tsx` (lines 423-455): for a
target year, twelve buckets (0 = January .. 11 = December), each mapping a
category id to its summed spend, built by folding the entry list over the
all-zero buckets.  The source presets each id of the fixed category list
to 0 in a mutable object and then adds into it; the embedding makes the
bucket total over all strings with default 0, which agrees with the source
on every id of the category list under the data-model invariant that each
`categoryId` is a foreign key into that list. -/
def monthlyBreakdown (entries : List BudgetEntry) (year : ℤ) :
    Fin 12 → String → ℚ :=
  entries.foldl (applyEntry year) fun _ _ => 0

/-- Spec wording (section 4.1, step 3): the contribution of `e` to bucket
`(year, m)` of category `c` when `e` is a non-recurring entry dated in that
exact year and month. -/
def oneTimeContrib (year : ℤ) (m : Fin 12) (c : String) (e : BudgetEntry) : ℚ :=
  match e.date with
  | none => 0
  | some (ey, em) =>
    if e.isRecurring = false ∧ e.categoryId = c ∧ ey = year ∧ em = m then e.amount
    else 0

/-- Spec wording (section 4.1, step 4, first case): the contribution of a
recurring entry whose date-year is strictly before the target year; it is
added to every bucket of the target year. -/
def priorYearRecContrib (year : ℤ) (c : String) (e : BudgetEntry) : ℚ :=
  match e.date with
  | none => 0
  | some (ey, _) =>
    if e.isRecurring = true ∧ e.categoryId = c ∧ ey < year then e.amount else 0

/-- Spec wording (section 4.1, step 4, second case): the contribution of a
recurring entry starting inside the target year to bucket `m`; it counts
exactly when its start month is at most `m`. -/
def midYearRecContrib (year : ℤ) (m : Fin 12) (c : String) (e : BudgetEntry) : ℚ :=
  match e.date with
  | none => 0
  | some (ey, em) =>
    if e.isRecurring = true ∧ e.categoryId = c ∧ ey = year ∧ em ≤ m then e.amount
    else 0

/-- The total contribution of a single entry to bucket `m` of category `c`
for the target year: exactly one of the three spec cases can be nonzero. -/
def entryBucketContrib (year : ℤ) (m : Fin 12) (c : String) (e : BudgetEntry) : ℚ :=
  oneTimeContrib year m c e + priorYearRecContrib year c e + midYearRecContrib year m c e

theorem applyEntry_apply (year : ℤ) (bd : Fin 12 → String → ℚ)
    (e : BudgetEntry) (m : Fin 12) (c : String) :
    applyEntry year bd e m c = bd m c + entryBucketContrib year m c e := by
  unfold applyEntry entryBucketContrib oneTimeContrib priorYearRecContrib midYearRecContrib
  rcases hd : e.date with _ | ⟨ey, em⟩ <;> rcases hr : e.isRecurring <;>
    simp only [Bool.false_eq_true, Bool.true_eq_false, if_false, if_true, true_and,
      false_and, and_true, and_false, ite_false, ite_true]
  case none.false => ring
  case none.true => ring
  all_goals try split_ifs
  all_goals simp_all

theorem foldl_applyEntry (year : ℤ) (entries : List BudgetEntry)
    (bd : Fin 12 → String → ℚ) (m : Fin 12) (c : String) :
    entries.foldl (applyEntry year) bd m c
      = bd m c + (entries.map (entryBucketContrib year m c)).sum := by
  induction entries generalizing bd with
  | nil => simp
  | cons e es ih =>
    simp only [List.foldl_cons, List.map_cons, List.sum_cons]
    rw [ih, applyEntry_apply]
    ring

/-- The pointwise characterization of the breakdown builder: bucket `m` of
category `c` is the sum over all entries of the per-entry contribution. -/
theorem monthlyBreakdown_apply (entries : List BudgetEntry) (year : ℤ)
    (m : Fin 12) (c : String) :
    monthlyBreakdown entries year m c
      = (entries.map (entryBucketContrib year m c)).sum := by
  unfold monthlyBreakdown
  rw [foldl_applyEntry]
  ring

/-- C1: for every entry list and target year, bucket `m` of category `c` of
the monthly breakdown is exactly the sum of the amounts of non-recurring
entries of category `c` dated in that year and month, plus the amounts of
recurring entries of category `c` whose date-year is strictly earlier
(present in every bucket), plus the amounts of recurring entries of
category `c` starting that year in a month at most `m`; entries with a
later date-year, and non-recurring entries of other years, contribute
nothing. -/
theorem monthlyBreakdown_eq_spec_sums (entries : List BudgetEntry) (year : ℤ)
    (m : Fin 12) (c : String) :
    monthlyBreakdown entries year m c
      = (entries.map (oneTimeContrib year m c)).sum
        + (entries.map (priorYearRecContrib year c)).sum
        + (entries.map (midYearRecContrib year m c)).sum := by
  rw [monthlyBreakdown_apply]
  unfold entryBucketContrib
  induction entries with
  | nil => simp
  | cons e es ih =>
    simp only [List.map_cons, List.sum_cons]
    rw [ih]
    ring

/-- `entriesForPeriod` from `src/BudgetView.tsx` (lines 457-477): the subset
of entries displayed for the selected period (`none` for the year view,
`some M` for the month view).  An unparseable date again fails every
comparison, so such entries are filtered out in every period. -/
def entriesForPeriod (entries : List BudgetEntry) (year : ℤ)
    (period : Option (Fin 12)) : List BudgetEntry :=
  entries.filter fun e =>
    match e.date, period with
    | none, _ => false
    | some (ey, _), none =>
      if e.isRecurring then decide (ey ≤ year) else decide (ey = year)
    | some (ey, em), some M =>
      if e.isRecurring then decide (ey < year ∨ (ey = year ∧ em ≤ M))
      else decide (ey = year ∧ em = M)

/-- Spec wording (section 4.3): the display criterion for an entry, as the
claim states it. -/
def displayed (year : ℤ) (period : Option (Fin 12)) (e : BudgetEntry) : Prop :=
  match period with
  | none =>
    (e.isRecurring = false ∧ ∃ em, e.date = some (year, em)) ∨
    (e.isRecurring = true ∧ ∃ ey em, e.date = some (ey, em) ∧ ey ≤ year)
  | some M =>
    (e.isRecurring = false ∧ e.date = some (year, M)) ∨
    (e.isRecurring = true ∧ ∃ ey em, e.date = some (ey, em) ∧
      (ey < year ∨ (ey = year ∧ em ≤ M)))

/-- C4: an entry is in the filtered display list exactly when it is in the
input list and satisfies the period criterion: in the year view,
non-recurring with date-year `Y`, or recurring with date-year at most `Y`;
in the month-`M` view, non-recurring dated exactly `(Y, M)`, or recurring
with date-year before `Y`, or starting in year `Y` in a month at most
`M`. -/
theorem mem_entriesForPeriod_iff (entries : List BudgetEntry) (year : ℤ)
    (period : Option (Fin 12)) (e : BudgetEntry) :
    e ∈ entriesForPeriod entries year period ↔
      e ∈ entries ∧ displayed year period e := by
  unfold entriesForPeriod displayed
  rw [List.mem_filter]
  refine and_congr_right fun _ => ?_
  rcases hd : e.date with _ | ⟨ey, em⟩ <;> rcases period with _ | M <;>
    rcases hr : e.isRecurring <;>
    simp [hd, hr]
  constructor
  · exact fun h => ⟨ey, em, ⟨rfl, rfl⟩, h⟩
  · rintro ⟨a, b, ⟨rfl, rfl⟩, h⟩
    exact h

/-- The progress record returned for one category by
`categoryProgressData`: the spread of the category record with the computed
`spent`, `budget` and `rollover` fields. -/
structure CategoryProgress where
  category : BudgetCategory
  spent : ℚ
  budget : ℚ
  rollover : ℚ
deriving DecidableEq, Repr

/-- The rollover simulation loop of `categoryProgressData` in
`src/BudgetView.tsx` (lines 508-517): the rollover state of category `cat`
after processing months `0 .. n-1`.  The source loop variable stays below
12 (the selected month index); the `n < 12` guard merely totalizes the
function outside the range the source ever uses.  The source updates a map
for all categories inside one loop, but the states of distinct categories
never interact, so the recurrence runs per category. -/
def rolloverAfter (bd : Fin 12 → String → ℚ) (cat : BudgetCategory) : Nat → ℚ
  | 0 => 0
  | n + 1 =>
    let r := rolloverAfter bd cat n
    if h : n < 12 then
      let deficit := bd ⟨n, h⟩ cat.id + r - cat.budget
      if deficit > 0 then deficit else 0
    else r

/-- `categoryProgressData` from `src/BudgetView.tsx` (lines 497-528), over
a breakdown `bd`: the year view reports the 12-bucket sum, the scaled
budget and no rollover; the month view reports the bucket of the selected
month plus the simulated rollover, the nominal budget and that rollover. -/
def categoryProgressData (cats : List BudgetCategory)
    (bd : Fin 12 → String → ℚ) (period : Option (Fin 12)) :
    List CategoryProgress :=
  match period with
  | none =>
    cats.map fun cat =>
      { category := cat
        spent := (List.finRange 12).foldl (fun sum m => sum + bd m cat.id) 0
        budget := cat.budget * 12
        rollover := 0 }
  | some M =>
    cats.map fun cat =>
      let r := rolloverAfter bd cat M.val
      { category := cat
        spent := bd M cat.id + r
        budget := cat.budget
        rollover := r }

theorem foldl_add_eq (f : Fin 12 → ℚ) (l : List (Fin 12)) (s : ℚ) :
    l.foldl (fun sum m => sum + f m) s = s + (l.map f).sum := by
  induction l generalizing s with
  | nil => simp
  | cons m ms ih => simp only [List.foldl_cons, List.map_cons, List.sum_cons, ih]; ring

/-- C2: in the month view the rollover state starts at zero, is updated
month by month to `max (spend + rollover - budget) 0`, and the report for
month `M` is `spent = bucket M + rollover`, `budget` the nominal monthly
budget, and `rollover` the state entering month `M`. -/
theorem categoryProgressData_month_spec (cats : List BudgetCategory)
    (bd : Fin 12 → String → ℚ) (M : Fin 12) (cat : BudgetCategory)
    (n : Fin 12) :
    rolloverAfter bd cat 0 = 0 ∧
    rolloverAfter bd cat (n.val + 1)
      = max (bd n cat.id + rolloverAfter bd cat n.val - cat.budget) 0 ∧
    categoryProgressData cats bd (some M)
      = cats.map fun c =>
          { category := c
            spent := bd M c.id + rolloverAfter bd c M.val
            budget := c.budget
            rollover := rolloverAfter bd c M.val } := by
  refine ⟨rfl, ?_, rfl⟩
  show (if h : n.val < 12 then
      if bd ⟨n.val, h⟩ cat.id + rolloverAfter bd cat n.val - cat.budget > 0 then
        bd ⟨n.val, h⟩ cat.id + rolloverAfter bd cat n.val - cat.budget
      else 0
    else rolloverAfter bd cat n.val) = _
  rw [dif_pos n.isLt]
  rcases le_or_lt (bd n cat.id + rolloverAfter bd cat n.val - cat.budget) 0 with h | h
  · rw [if_neg (not_lt.mpr h), max_eq_right h]
  · rw [if_pos h, max_eq_left (le_of_lt h)]

/-- C3: in the year view every category reports `spent` equal to the sum of
its twelve monthly buckets, `budget` equal to twelve times its monthly
budget, and `rollover = 0`; in particular no category ever reports a
nonzero rollover in the year view. -/
theorem categoryProgressData_year_spec (cats : List BudgetCategory)
    (bd : Fin 12 → String → ℚ) :
    categoryProgressData cats bd none
      = (cats.map fun cat =>
          { category := cat
            spent := ∑ m : Fin 12, bd m cat.id
            budget := cat.budget * 12
            rollover := 0 }) ∧
    ∀ p ∈ categoryProgressData cats bd none, p.rollover = 0 := by
  constructor
  · unfold categoryProgressData
    refine List.map_congr_left fun cat _ => ?_
    rw [foldl_add_eq, Fin.sum_univ_def]
    simp
  · intro p hp
    unfold categoryProgressData at hp
    obtain ⟨cat, _, rfl⟩ := List.mem_map.mp hp
    rfl

theorem rolloverAfter_nonneg (bd : Fin 12 → String → ℚ)
    (cat : BudgetCategory) (n : Nat) : 0 ≤ rolloverAfter bd cat n := by
  induction n with
  | zero => exact le_refl 0
  | succ k ih =>
    show 0 ≤ (if h : k < 12 then
        if bd ⟨k, h⟩ cat.id + rolloverAfter bd cat k - cat.budget > 0 then
          bd ⟨k, h⟩ cat.id + rolloverAfter bd cat k - cat.budget
        else 0
      else rolloverAfter bd cat k)
    split_ifs with h1 h2
    · exact le_of_lt h2
    · exact le_refl 0
    · exact ih

/-- C9: the rollover state is never negative: for every entry list, year
and category it is nonnegative after each simulated month, and the
rollover reported for the selected month is nonnegative — an underrun
resets the carried value to zero instead of banking a credit. -/
theorem rollover_nonneg_reported (entries : List BudgetEntry) (year : ℤ)
    (cat : BudgetCategory) (n : Nat) (cats : List BudgetCategory)
    (M : Fin 12) (p : CategoryProgress)
    (hp : p ∈ categoryProgressData cats (monthlyBreakdown entries year) (some M)) :
    0 ≤ rolloverAfter (monthlyBreakdown entries year) cat n ∧ 0 ≤ p.rollover := by
  refine ⟨rolloverAfter_nonneg _ _ _, ?_⟩
  unfold categoryProgressData at hp
  obtain ⟨c, _, rfl⟩ := List.mem_map.mp hp
  exact rolloverAfter_nonneg _ _ _

/-- C10: an entry whose date string fails to parse is silently skipped: it
changes no bucket of any breakdown for any year, and it is excluded from
the display list of every period. -/
theorem unparsed_date_entry_skipped (e : BudgetEntry)
    (l1 l2 entries : List BudgetEntry) (year : ℤ) (period : Option (Fin 12))
    (h : e.date = none) :
    monthlyBreakdown (l1 ++ e :: l2) year = monthlyBreakdown (l1 ++ l2) year ∧
    e ∉ entriesForPeriod entries year period := by
  have he : ∀ bd, applyEntry year bd e = bd := by
    intro bd
    funext m c
    simp [applyEntry, h]
  constructor
  · unfold monthlyBreakdown
    rw [List.foldl_append, List.foldl_append, List.foldl_cons, he]
  · intro hmem
    have := (List.mem_filter.mp hmem).2
    rw [h] at this
    simp at this

/-- One step of the `budgetEntries.forEach` accumulation inside
`budgetOverview` in `src/WishlistView.tsx` (lines 299-340): how one entry
updates the pair `(totalYearlySpent, totalMonthlySpent)` for the current
UTC year and month. -/
def overviewStep (currentYear : ℤ) (currentMonth : Fin 12) (acc : ℚ × ℚ)
    (e : BudgetEntry) : ℚ × ℚ :=
  match e.date with
  | none => acc
  | some (ey, em) =>
    if e.isRecurring then
      if ey < currentYear then (acc.1 + e.amount * 12, acc.2 + e.amount)
      else if ey = currentYear then
        (acc.1 + e.amount * (12 - (em.val : ℚ)),
         if em ≤ currentMonth then acc.2 + e.amount else acc.2)
      else acc
    else
      if ey = currentYear then
        (acc.1 + e.amount,
         if em = currentMonth then acc.2 + e.amount else acc.2)
      else acc

/-- The `(totalYearlySpent, totalMonthlySpent)` accumulators of
`budgetOverview` in `src/WishlistView.tsx`. -/
def budgetOverviewSpent (entries : List BudgetEntry) (currentYear : ℤ)
    (currentMonth : Fin 12) : ℚ × ℚ :=
  entries.foldl (overviewStep currentYear currentMonth) (0, 0)

/-- One step of the `budgetEntries.reduce` inside `BudgetSnapshotCard` of
the home dashboard (`src/unnamed/part_001`, lines 165-191). -/
def snapshotStep (currentYear : ℤ) (currentMonth : Fin 12) (total : ℚ)
    (e : BudgetEntry) : ℚ :=
  match e.date with
  | none => total
  | some (ey, em) =>
    if e.isRecurring then
      if ey < currentYear ∨ (ey = currentYear ∧ em ≤ currentMonth) then
        total + e.amount
      else total
    else
      if ey = currentYear ∧ em = currentMonth then total + e.amount else total

/-- `spentThisMonth` of `BudgetSnapshotCard` in the home dashboard. -/
def spentThisMonth (entries : List BudgetEntry) (currentYear : ℤ)
    (currentMonth : Fin 12) : ℚ :=
  entries.foldl (snapshotStep currentYear currentMonth) 0

/-- The yearly amount one entry adds to `totalYearlySpent` in the wishlist
view. -/
def yearlySpentContrib (year : ℤ) (e : BudgetEntry) : ℚ :=
  match e.date with
  | none => 0
  | some (ey, em) =>
    if e.isRecurring then
      if ey < year then e.amount * 12
      else if ey = year then e.amount * (12 - (em.val : ℚ))
      else 0
    else if ey = year then e.amount else 0

/-- The monthly amount one entry adds to `totalMonthlySpent` in the
wishlist view and to `spentThisMonth` in the dashboard. -/
def monthlySpentContrib (year : ℤ) (M : Fin 12) (e : BudgetEntry) : ℚ :=
  match e.date with
  | none => 0
  | some (ey, em) =>
    if e.isRecurring then
      if ey < year ∨ (ey = year ∧ em ≤ M) then e.amount else 0
    else if ey = year ∧ em = M then e.amount else 0

theorem overviewStep_eq (year : ℤ) (M : Fin 12) (acc : ℚ × ℚ)
    (e : BudgetEntry) :
    overviewStep year M acc e
      = (acc.1 + yearlySpentContrib year e, acc.2 + monthlySpentContrib year M e) := by
  refine Prod.ext ?_ ?_ <;>
    unfold overviewStep yearlySpentContrib monthlySpentContrib <;>
    rcases hd : e.date with _ | ⟨ey, em⟩ <;> rcases hr : e.isRecurring <;>
    simp only [Bool.false_eq_true, Bool.true_eq_false, if_false, if_true,
      ite_false, ite_true]
  all_goals try split_ifs
  all_goals simp_all
  all_goals (exfalso; omega)

theorem snapshotStep_eq (year : ℤ) (M : Fin 12) (total : ℚ)
    (e : BudgetEntry) :
    snapshotStep year M total e = total + monthlySpentContrib year M e := by
  unfold snapshotStep monthlySpentContrib
  rcases hd : e.date with _ | ⟨ey, em⟩ <;> rcases hr : e.isRecurring <;>
    simp only [Bool.false_eq_true, Bool.true_eq_false, if_false, if_true,
      ite_false, ite_true]
  all_goals try split_ifs
  all_goals simp_all

theorem budgetOverviewSpent_eq (entries : List BudgetEntry) (year : ℤ)
    (M : Fin 12) :
    budgetOverviewSpent entries year M
      = ((entries.map (yearlySpentContrib year)).sum,
         (entries.map (monthlySpentContrib year M)).sum) := by
  have key : ∀ (l : List BudgetEntry) (acc : ℚ × ℚ),
      l.foldl (overviewStep year M) acc
        = (acc.1 + (l.map (yearlySpentContrib year)).sum,
           acc.2 + (l.map (monthlySpentContrib year M)).sum) := by
    intro l
    induction l with
    | nil => intro acc; simp
    | cons e es ih =>
      intro acc
      rw [List.foldl_cons, ih, overviewStep_eq]
      simp only [List.map_cons, List.sum_cons, Prod.mk.injEq]
      constructor <;> ring
  have h0 := key entries (0, 0)
  simpa using h0

theorem spentThisMonth_eq (entries : List BudgetEntry) (year : ℤ)
    (M : Fin 12) :
    spentThisMonth entries year M
      = (entries.map (monthlySpentContrib year M)).sum := by
  have key : ∀ (l : List BudgetEntry) (total : ℚ),
      l.foldl (snapshotStep year M) total
        = total + (l.map (monthlySpentContrib year M)).sum := by
    intro l
    induction l with
    | nil => intro total; simp
    | cons e es ih =>
      intro total
      rw [List.foldl_cons, ih, snapshotStep_eq]
      simp only [List.map_cons, List.sum_cons]
      ring
  have h0 := key entries 0
  simpa using h0

theorem entryBucketContrib_eq_ite (year : ℤ) (m : Fin 12) (c : String)
    (e : BudgetEntry) :
    entryBucketContrib year m c e
      = if e.categoryId = c then entryBucketContrib year m e.categoryId e
        else 0 := by
  by_cases h : e.categoryId = c
  · rw [if_pos h, h]
  · rw [if_neg h]
    unfold entryBucketContrib oneTimeContrib priorYearRecContrib midYearRecContrib
    rcases hd : e.date with _ | ⟨ey, em⟩ <;> simp [h]

theorem sum_map_ite_of_nodup (ids : List String) (cid : String) (x : ℚ)
    (hnd : ids.Nodup) (hmem : cid ∈ ids) :
    (ids.map fun i => if cid = i then x else 0).sum = x := by
  induction ids with
  | nil => cases hmem
  | cons i is ih =>
    simp only [List.map_cons, List.sum_cons]
    rcases List.mem_cons.mp hmem with h | h
    · subst h
      rw [if_pos rfl]
      have hz : (is.map fun j => if cid = j then x else 0).sum = 0 := by
        apply List.sum_eq_zero
        intro y hy
        obtain ⟨j, hj, rfl⟩ := List.mem_map.mp hy
        have : cid ≠ j := fun hcj => (List.nodup_cons.mp hnd).1 (hcj ▸ hj)
        rw [if_neg this]
      rw [hz, add_zero]
    · have hne : cid ≠ i := by
        rintro rfl
        exact (List.nodup_cons.mp hnd).1 h
      rw [if_neg hne, ih (List.nodup_cons.mp hnd).2 h, zero_add]

theorem cats_sum_entryBucketContrib (cats : List BudgetCategory)
    (hnd : (cats.map BudgetCategory.id).Nodup) (e : BudgetEntry)
    (hmem : e.categoryId ∈ cats.map BudgetCategory.id) (year : ℤ)
    (m : Fin 12) :
    (cats.map fun cat => entryBucketContrib year m cat.id e).sum
      = entryBucketContrib year m e.categoryId e := by
  have h1 : (cats.map fun cat => entryBucketContrib year m cat.id e)
      = (cats.map BudgetCategory.id).map fun i =>
          if e.categoryId = i then entryBucketContrib year m e.categoryId e
          else 0 := by
    rw [List.map_map]
    exact List.map_congr_left fun cat _ => entryBucketContrib_eq_ite year m cat.id e
  rw [h1, sum_map_ite_of_nodup _ _ _ hnd hmem]

theorem sum_map_add (l : List BudgetEntry) (f g : BudgetEntry → ℚ) :
    (l.map fun b => f b + g b).sum = (l.map f).sum + (l.map g).sum := by
  induction l with
  | nil => simp
  | cons b bs ih => simp only [List.map_cons, List.sum_cons, ih]; ring

theorem sum_map_sum_swap (l1 : List BudgetCategory) (l2 : List BudgetEntry)
    (F : BudgetCategory → BudgetEntry → ℚ) :
    (l1.map fun a => (l2.map (F a)).sum).sum
      = (l2.map fun b => (l1.map fun a => F a b).sum).sum := by
  induction l1 with
  | nil => simp
  | cons a l1 ih =>
    simp only [List.map_cons, List.sum_cons, ih]
    rw [← sum_map_add]

theorem finsum_map_swap (l : List BudgetEntry) (F : Fin 12 → BudgetEntry → ℚ) :
    ∑ m : Fin 12, (l.map (F m)).sum = (l.map fun e => ∑ m : Fin 12, F m e).sum := by
  induction l with
  | nil => simp
  | cons e es ih =>
    simp only [List.map_cons, List.sum_cons, Finset.sum_add_distrib, ih]

theorem filter_card_ge (j : Fin 12) :
    (Finset.univ.filter fun m : Fin 12 => j ≤ m).card = 12 - j.val := by
  revert j
  decide

/-- Summing the per-bucket contribution of one entry over the twelve
months of the target year gives exactly the yearly amount the wishlist
view adds for that entry. -/
theorem sum_months_entryBucketContrib (year : ℤ) (e : BudgetEntry) :
    ∑ m : Fin 12, entryBucketContrib year m e.categoryId e
      = yearlySpentContrib year e := by
  unfold entryBucketContrib oneTimeContrib priorYearRecContrib midYearRecContrib
    yearlySpentContrib
  rcases hd : e.date with _ | ⟨ey, em⟩ <;> rcases hr : e.isRecurring
  · simp
  · simp
  · by_cases hy : ey = year
    · subst hy
      simp [Finset.sum_ite_eq]
    · simp [hy]
  · by_cases hlt : ey < year
    · simp only [hr, Bool.true_eq_false, false_and, if_false, true_and, if_true,
        eq_self_iff_true, and_true, if_pos hlt, ne_of_lt hlt, false_and, and_false,
        ite_false, zero_add, add_zero, ite_true, Finset.sum_const, Finset.card_univ,
        Fintype.card_fin, if_neg (ne_of_lt hlt)]
      simp [ne_of_lt hlt]
      ring
    · by_cases hy : ey = year
      · subst hy
        have hstep : (∑ m : Fin 12, if em ≤ m then e.amount else 0)
            = ((Finset.univ.filter fun m : Fin 12 => em ≤ m).card : ℚ) * e.amount := by
          rw [Finset.sum_ite, Finset.sum_const, Finset.sum_const_zero, add_zero,
            nsmul_eq_mul]
        simp only [hr, lt_irrefl, if_false, Bool.true_eq_false, false_and, ite_false,
          eq_self_iff_true, true_and, and_true, ite_true, zero_add, add_zero]
        rw [hstep, filter_card_ge]
        have hle : em.val ≤ 12 := le_of_lt em.isLt
        rw [Nat.cast_sub hle]
        push_cast
        ring
      · simp [hlt, hy]

/-- At one fixed month, the per-bucket contribution of an entry at its own
category equals the monthly amount the wishlist and dashboard views add
for that entry. -/
theorem entryBucketContrib_at_month (year : ℤ) (M : Fin 12) (e : BudgetEntry) :
    entryBucketContrib year M e.categoryId e = monthlySpentContrib year M e := by
  unfold entryBucketContrib oneTimeContrib priorYearRecContrib midYearRecContrib
    monthlySpentContrib
  rcases hd : e.date with _ | ⟨ey, em⟩ <;> rcases hr : e.isRecurring <;>
    simp only [Bool.false_eq_true, Bool.true_eq_false, if_false, if_true, true_and,
      false_and, and_true, and_false, ite_false, ite_true]
  all_goals try split_ifs
  all_goals simp_all
  all_goals (exfalso; omega)

/-- For each month, summing the breakdown bucket over the category list
equals summing the per-entry contributions over the entry list, provided
category ids are distinct and every entry refers to a listed category. -/
theorem catsum_breakdown (entries : List BudgetEntry)
    (cats : List BudgetCategory) (year : ℤ)
    (hnd : (cats.map BudgetCategory.id).Nodup)
    (hfk : ∀ e ∈ entries, e.categoryId ∈ cats.map BudgetCategory.id)
    (m : Fin 12) :
    (cats.map fun c => monthlyBreakdown entries year m c.id).sum
      = (entries.map fun e => entryBucketContrib year m e.categoryId e).sum := by
  have h1 : (cats.map fun c => monthlyBreakdown entries year m c.id)
      = cats.map fun c => (entries.map (entryBucketContrib year m c.id)).sum :=
    List.map_congr_left fun c _ => monthlyBreakdown_apply entries year m c.id
  rw [h1, sum_map_sum_swap]
  exact List.map_congr_left (fun e he =>
    cats_sum_entryBucketContrib cats hnd e (hfk e he) year m) ▸ rfl

/-- C5: with `Y`/`M` the current UTC year and month, the
`totalYearlySpent` of the wishlist view equals the sum of all twelve
buckets of the budget-view breakdown over all categories, and both the
`totalMonthlySpent` of the wishlist view and the `spentThisMonth` of the
dashboard equal the sum of bucket `M` over all categories — assuming the
fixed category list has distinct ids and every entry refers to a listed
category. -/
theorem spend_aggregates_agree (entries : List BudgetEntry)
    (cats : List BudgetCategory) (year : ℤ) (M : Fin 12)
    (hnd : (cats.map BudgetCategory.id).Nodup)
    (hfk : ∀ e ∈ entries, e.categoryId ∈ cats.map BudgetCategory.id) :
    (budgetOverviewSpent entries year M).1
      = ∑ m : Fin 12, (cats.map fun c => monthlyBreakdown entries year m c.id).sum
    ∧ (budgetOverviewSpent entries year M).2
      = (cats.map fun c => monthlyBreakdown entries year M c.id).sum
    ∧ spentThisMonth entries year M
      = (cats.map fun c => monthlyBreakdown entries year M c.id).sum := by
  have hmon : (entries.map (monthlySpentContrib year M)).sum
      = (cats.map fun c => monthlyBreakdown entries year M c.id).sum := by
    rw [catsum_breakdown entries cats year hnd hfk M]
    exact (List.map_congr_left fun e _ =>
      (entryBucketContrib_at_month year M e).symm) ▸ rfl
  refine ⟨?_, ?_, ?_⟩
  · rw [budgetOverviewSpent_eq]
    have h2 : (entries.map (yearlySpentContrib year)).sum
        = (entries.map fun e =>
            ∑ m : Fin 12, entryBucketContrib year m e.categoryId e).sum := by
      exact (List.map_congr_left fun e _ =>
        (sum_months_entryBucketContrib year e).symm) ▸ rfl
    show (entries.map (yearlySpentContrib year)).sum = _
    rw [h2, ← finsum_map_swap]
    exact Finset.sum_congr rfl fun m _ => (catsum_breakdown entries cats year hnd hfk m).symm
  · rw [budgetOverviewSpent_eq]
    show (entries.map (monthlySpentContrib year M)).sum = _
    exact hmon
  · rw [spentThisMonth_eq]
    exact hmon

/-- One slice of the category spending donut chart. -/
structure PieSlice where
  id : String
  name : String
  value : ℚ
  percentage : ℚ
  color : String
deriving DecidableEq, Repr

/-- The per-category yearly total built by `categorySpendingDataForChart`
(`src/BudgetView.tsx`, lines 530-538): the sum of the twelve monthly
buckets of one category id. -/
def yearlyCategorySpending (bd : Fin 12 → String → ℚ) (cid : String) : ℚ :=
  (List.finRange 12).foldl (fun sum m => sum + bd m cid) 0

/-- `categorySpendingDataForChart` from `src/BudgetView.tsx`
(lines 530-550): if the total spend is zero the slice list is empty,
otherwise one slice per category, keeping only slices with positive
value. -/
def categorySpendingDataForChart (cats : List BudgetCategory)
    (bd : Fin 12 → String → ℚ) : List PieSlice :=
  let totalSpent := (cats.map fun c => yearlyCategorySpending bd c.id).sum
  if totalSpent = 0 then []
  else
    (cats.map fun c =>
      { id := c.id
        name := c.name
        value := yearlyCategorySpending bd c.id
        percentage := yearlyCategorySpending bd c.id / totalSpent * 100
        color := c.color }).filter fun d => decide (0 < d.value)

/-- The progress-bar percentage of `CategoryProgressList` in
`src/BudgetView.tsx` (lines 288-290): guarded so that a non-positive
budget yields 0 instead of dividing. -/
def progressPercentage (spent budget : ℚ) : ℚ :=
  if budget > 0 then spent / budget * 100 else 0

theorem yearlyCategorySpending_eq_sum (bd : Fin 12 → String → ℚ)
    (cid : String) :
    yearlyCategorySpending bd cid = ∑ m : Fin 12, bd m cid := by
  unfold yearlyCategorySpending
  rw [foldl_add_eq, Fin.sum_univ_def]
  simp

theorem yearlyCategorySpending_nonneg (bd : Fin 12 → String → ℚ)
    (cid : String) (h : ∀ m : Fin 12, 0 ≤ bd m cid) :
    0 ≤ yearlyCategorySpending bd cid := by
  rw [yearlyCategorySpending_eq_sum]
  exact Finset.sum_nonneg fun m _ => h m

theorem list_sum_eq_zero_of_nonneg (l : List ℚ) (hnn : ∀ x ∈ l, 0 ≤ x)
    (hz : l.sum = 0) : ∀ x ∈ l, x = 0 := by
  induction l with
  | nil => intro x hx; cases hx
  | cons a as ih =>
    intro x hx
    rw [List.sum_cons] at hz
    have ha : 0 ≤ a := hnn a (List.mem_cons_self a as)
    have has : 0 ≤ as.sum :=
      List.sum_nonneg fun y hy => hnn y (List.mem_cons_of_mem a hy)
    have ha0 : a = 0 := by linarith
    have hs0 : as.sum = 0 := by linarith
    rcases List.mem_cons.mp hx with rfl | hx2
    · exact ha0
    · exact ih (fun y hy => hnn y (List.mem_cons_of_mem a hy)) hs0 x hx2

theorem list_filter_map_comm (l : List BudgetCategory)
    (f : BudgetCategory → PieSlice) (p : PieSlice → Bool) :
    (l.map f).filter p = (l.filter fun c => p (f c)).map f := by
  induction l with
  | nil => rfl
  | cons c cs ih =>
    by_cases h : p (f c) = true
    · simp [List.filter_cons, h, ih]
    · simp only [Bool.not_eq_true] at h
      simp [List.filter_cons, h, ih]

/-- The characterization shared by the chart claims: for a breakdown with
nonnegative buckets, the slice list is exactly one slice per category with
nonzero yearly total, carrying that total and its share of the overall
total. -/
theorem chartSlices_eq (cats : List BudgetCategory)
    (bd : Fin 12 → String → ℚ)
    (hnn : ∀ (m : Fin 12) (c : BudgetCategory), c ∈ cats → 0 ≤ bd m c.id) :
    categorySpendingDataForChart cats bd
      = (cats.filter fun c => decide (yearlyCategorySpending bd c.id ≠ 0)).map
          fun c =>
            { id := c.id
              name := c.name
              value := yearlyCategorySpending bd c.id
              percentage := yearlyCategorySpending bd c.id
                / (cats.map fun c2 => yearlyCategorySpending bd c2.id).sum * 100
              color := c.color } := by
  unfold categorySpendingDataForChart
  by_cases htot : (cats.map fun c => yearlyCategorySpending bd c.id).sum = 0
  · rw [if_pos htot]
    have hall : ∀ c ∈ cats, yearlyCategorySpending bd c.id = 0 := by
      intro c hc
      refine list_sum_eq_zero_of_nonneg _ ?_ htot _ (List.mem_map_of_mem _ hc)
      intro x hx
      obtain ⟨c2, hc2, rfl⟩ := List.mem_map.mp hx
      exact yearlyCategorySpending_nonneg bd c2.id fun m => hnn m c2 hc2
    have hfil : (cats.filter fun c => decide (yearlyCategorySpending bd c.id ≠ 0)) = [] := by
      apply List.filter_eq_nil_iff.mpr
      intro c hc
      simp [hall c hc]
    rw [hfil, List.map_nil]
  · rw [if_neg htot, list_filter_map_comm]
    have hpred : ∀ c ∈ cats,
        (decide (0 < yearlyCategorySpending bd c.id))
          = decide (yearlyCategorySpending bd c.id ≠ 0) := by
      intro c hc
      have h0 : 0 ≤ yearlyCategorySpending bd c.id :=
        yearlyCategorySpending_nonneg bd c.id fun m => hnn m c hc
      rcases lt_or_eq_of_le h0 with h | h
      · simp [h, ne_of_gt h]
      · simp [← h]
    rw [List.filter_congr hpred]

theorem sum_map_filter_ne (l : List BudgetCategory) (f : BudgetCategory → ℚ) :
    ((l.filter fun c => decide (f c ≠ 0)).map f).sum = (l.map f).sum := by
  induction l with
  | nil => rfl
  | cons c cs ih =>
    by_cases h : f c = 0
    · rw [List.filter_cons, if_neg (by simp [h]), ih, List.map_cons, List.sum_cons,
        h, zero_add]
    · rw [List.filter_cons, if_pos (by simp [h]), List.map_cons, List.sum_cons, ih,
        List.map_cons, List.sum_cons]

theorem list_sum_map_div_mul (l : List BudgetCategory)
    (f : BudgetCategory → ℚ) (t : ℚ) :
    (l.map fun c => f c / t * 100).sum = (l.map f).sum / t * 100 := by
  induction l with
  | nil => simp
  | cons c cs ih => simp only [List.map_cons, List.sum_cons, ih]; ring

/-- C6: for a breakdown with nonnegative buckets and distinct category
ids, the slice list contains exactly one slice per category with nonzero
yearly total, whose value is that total and whose percentage is the value
divided by the total over all categories times 100; zero-total categories
are absent, and a zero overall total yields the empty list. -/
theorem categorySpendingDataForChart_spec (cats : List BudgetCategory)
    (bd : Fin 12 → String → ℚ)
    (hnd : (cats.map BudgetCategory.id).Nodup)
    (hnn : ∀ (m : Fin 12) (c : BudgetCategory), c ∈ cats → 0 ≤ bd m c.id) :
    categorySpendingDataForChart cats bd
      = (cats.filter fun c => decide (yearlyCategorySpending bd c.id ≠ 0)).map
          fun c =>
            { id := c.id
              name := c.name
              value := yearlyCategorySpending bd c.id
              percentage := yearlyCategorySpending bd c.id
                / (cats.map fun c2 => yearlyCategorySpending bd c2.id).sum * 100
              color := c.color } :=
  chartSlices_eq cats bd hnn

/-- C7: for a breakdown with nonnegative buckets, distinct category ids
and nonzero total yearly spend, the slice percentages sum to exactly 100
over the rationals. -/
theorem chart_percentages_sum_100 (cats : List BudgetCategory)
    (bd : Fin 12 → String → ℚ)
    (hnd : (cats.map BudgetCategory.id).Nodup)
    (hnn : ∀ (m : Fin 12) (c : BudgetCategory), c ∈ cats → 0 ≤ bd m c.id)
    (htot : (cats.map fun c => yearlyCategorySpending bd c.id).sum ≠ 0) :
    ((categorySpendingDataForChart cats bd).map PieSlice.percentage).sum
      = 100 := by
  rw [chartSlices_eq cats bd hnn, List.map_map]
  show ((cats.filter fun c => decide (yearlyCategorySpending bd c.id ≠ 0)).map
      fun c => yearlyCategorySpending bd c.id
        / (cats.map fun c2 => yearlyCategorySpending bd c2.id).sum * 100).sum = 100
  rw [list_sum_map_div_mul, sum_map_filter_ne, div_self htot, one_mul]

/-- C8: the division guards: a zero category budget makes the progress
ratio 0 rather than an error, and a zero total spend makes the chart
return the empty slice list rather than computing any percentage, for
every entry list and year. -/
theorem zero_denominator_guards (s : ℚ) (cats : List BudgetCategory)
    (entries : List BudgetEntry) (year : ℤ)
    (htot : (cats.map fun c =>
      yearlyCategorySpending (monthlyBreakdown entries year) c.id).sum = 0) :
    progressPercentage s 0 = 0 ∧
    categorySpendingDataForChart cats (monthlyBreakdown entries year) = [] := by
  constructor
  · unfold progressPercentage
    rw [if_neg (lt_irrefl 0)]
  · unfold categorySpendingDataForChart
    rw [if_pos htot]

/-- A sample category used to instantiate the theorems with hypotheses. -/
def sampleCategory : BudgetCategory :=
  { id := "travel", name := "Travel", budget := 100, color := "blue" }

/-- A sample well-formed entry: 25 spent on travel in April 2024. -/
def sampleEntry : BudgetEntry :=
  { categoryId := "travel", amount := 25, isRecurring := false,
    date := some (2024, 3) }

/-- A sample entry whose date string failed to parse. -/
def badDateEntry : BudgetEntry :=
  { categoryId := "travel", amount := 50, isRecurring := true, date := none }

theorem spend_aggregates_agree_witness :
    (budgetOverviewSpent [sampleEntry] 2024 5).1
      = ∑ m : Fin 12,
          ([sampleCategory].map fun c => monthlyBreakdown [sampleEntry] 2024 m c.id).sum
    ∧ (budgetOverviewSpent [sampleEntry] 2024 5).2
      = ([sampleCategory].map fun c => monthlyBreakdown [sampleEntry] 2024 5 c.id).sum
    ∧ spentThisMonth [sampleEntry] 2024 5
      = ([sampleCategory].map fun c => monthlyBreakdown [sampleEntry] 2024 5 c.id).sum :=
  spend_aggregates_agree [sampleEntry] [sampleCategory] 2024 5 (by decide) (by decide)

theorem categorySpendingDataForChart_spec_witness :
    categorySpendingDataForChart [sampleCategory] (fun _ _ => (1 : ℚ))
      = ([sampleCategory].filter fun c =>
          decide (yearlyCategorySpending (fun _ _ => (1 : ℚ)) c.id ≠ 0)).map
          fun c =>
            { id := c.id
              name := c.name
              value := yearlyCategorySpending (fun _ _ => (1 : ℚ)) c.id
              percentage := yearlyCategorySpending (fun _ _ => (1 : ℚ)) c.id
                / ([sampleCategory].map fun c2 =>
                    yearlyCategorySpending (fun _ _ => (1 : ℚ)) c2.id).sum * 100
              color := c.color } :=
  categorySpendingDataForChart_spec [sampleCategory] (fun _ _ => 1) (by decide)
    (fun _ _ _ => by norm_num)

theorem chart_percentages_sum_100_witness :
    ((categorySpendingDataForChart [sampleCategory]
        (fun _ _ => (1 : ℚ))).map PieSlice.percentage).sum = 100 :=
  chart_percentages_sum_100 [sampleCategory] (fun _ _ => 1) (by decide)
    (fun _ _ _ => by norm_num)
    (by norm_num [yearlyCategorySpending_eq_sum])

theorem zero_denominator_guards_witness :
    progressPercentage 7 0 = 0 ∧
    categorySpendingDataForChart [sampleCategory] (monthlyBreakdown [] 2024) = [] :=
  zero_denominator_guards 7 [sampleCategory] [] 2024
    (by simp [yearlyCategorySpending_eq_sum, monthlyBreakdown])

theorem rollover_nonneg_reported_witness :
    0 ≤ rolloverAfter (monthlyBreakdown [] 2024) sampleCategory 3
    ∧ 0 ≤ (⟨sampleCategory, 0, 100, 0⟩ : CategoryProgress).rollover :=
  rollover_nonneg_reported [] 2024 sampleCategory 3 [sampleCategory] 0
    ⟨sampleCategory, 0, 100, 0⟩
    (by simp [categoryProgressData, monthlyBreakdown, rolloverAfter, sampleCategory])

theorem unparsed_date_entry_skipped_witness :
    monthlyBreakdown ([] ++ badDateEntry :: [sampleEntry]) 2024
      = monthlyBreakdown ([] ++ [sampleEntry]) 2024
    ∧ badDateEntry ∉ entriesForPeriod [badDateEntry, sampleEntry] 2024 none :=
  unparsed_date_entry_skipped badDateEntry [] [sampleEntry]
    [badDateEntry, sampleEntry] 2024 none rfl

end Atlas
